import Mathlib

/-!
Shallow embedding of the WildDuck message-management core
(`lib/message-handler.js`, `lib/handlers/on-copy.js`, the SASL PLAIN
authentication handler and the SSE journal formatter).

Conventions of the embedding:
* MongoDB collections are Lean lists of records; a database round trip
  becomes a pure function on a `DB` value.
* `findOneAndUpdate` without `returnOriginal: false` returns the document
  as it was *before* the update (the driver default), which the source
  relies on; the embedding mirrors that by returning the pre-image
  together with the updated database.
* ObjectIDs are natural numbers; JS strings handled at byte granularity
  are lists of characters (ASCII contents in all concrete inputs).
* Fields the source deletes from a document (`delete message.searchable`)
  are modelled as the field set to `false`; nothing in the verified
  claims distinguishes a missing field from a false one.
* Session streams and the notifier's cross-process pokes are omitted:
  the claims below concern the journal contents, result values and the
  stored documents only.
-/

namespace WildDuck

/-- A document of the `mailboxes` collection (the fields the handler reads). -/
structure Mailbox where
  mid : Nat
  user : Nat
  path : String
  uidNext : Nat
  modifyIndex : Nat
  uidValidity : Nat
  specialUse : Option String
  retention : Nat
  deriving Repr, DecidableEq

/-- A document of the `messages` collection (the fields the handler reads/writes). -/
structure Message where
  mid : Nat
  root : Nat
  user : Nat
  mailbox : Nat
  uid : Nat
  modseq : Nat
  hdate : Nat
  msgid : String
  flags : List String
  size : Nat
  unseen : Bool
  flagged : Bool
  undeleted : Bool
  draft : Bool
  searchable : Bool
  junk : Bool
  exp : Bool
  rdate : Nat
  deriving Repr, DecidableEq

/-- A document of the `users` collection (quota bookkeeping only). -/
structure UserRec where
  userId : Nat
  storageUsed : Int
  deriving Repr, DecidableEq

/-- A journal entry as produced by `notifier.addEntries`; the scope mailbox is
attached to the entry, `modseq`/`junk` are present only when the source sets
them.  The `ignore` session tag is omitted (no sessions in the model). -/
structure JournalEntry where
  mailbox : Nat
  command : String
  uid : Nat
  message : Nat
  modseq : Option Nat
  unseen : Bool
  junk : Option Int
  deriving Repr, DecidableEq

/-- The database state. -/
structure DB where
  mailboxes : List Mailbox
  messages : List Message
  users : List UserRec
  journal : List JournalEntry
  deriving Repr, DecidableEq

/-- Lookup `mailboxes.findOne({_id})`. -/
def mailboxFind (db : DB) (mboxId : Nat) : Option Mailbox :=
  db.mailboxes.find? (fun m => m.mid == mboxId)

/-- Update `mailboxes.findOneAndUpdate({_id}, {$inc: {uidNext: 1, modifyIndex: 1}})`
used by `MessageHandler.add` and `checkExistingMessage` to acquire a new
UID+MODSEQ pair.  No `returnOriginal: false` is given (the duplicate path even
passes `returnOriginal: true` explicitly), so the returned document is the
record before the increment. -/
def reserveUidModseq (db : DB) (mboxId : Nat) : Option (Mailbox × DB) :=
  (mailboxFind db mboxId).map fun m =>
    (m,
      { db with
          mailboxes := db.mailboxes.map fun x =>
            if x.mid == mboxId then
              { x with uidNext := x.uidNext + 1, modifyIndex := x.modifyIndex + 1 }
            else x })

/-- Update `mailboxes.findOneAndUpdate({_id}, {$inc: {uidNext: 1}})` as used by
`move` and `onCopy` for each copied message; pre-image returned. -/
def bumpUidNext (db : DB) (mboxId : Nat) : Option (Mailbox × DB) :=
  (mailboxFind db mboxId).map fun m =>
    (m,
      { db with
          mailboxes := db.mailboxes.map fun x =>
            if x.mid == mboxId then { x with uidNext := x.uidNext + 1 } else x })

/-- Update `mailboxes.findOneAndUpdate({_id}, {$inc: {modifyIndex: 1}})` at the start
of `move`; the source ignores the result entirely. -/
def bumpModifyIndex (db : DB) (mboxId : Nat) : DB :=
  { db with
      mailboxes := db.mailboxes.map fun x =>
        if x.mid == mboxId then { x with modifyIndex := x.modifyIndex + 1 } else x }

/-- Update `users.findOneAndUpdate({_id: userId}, {$inc: {storageUsed: delta}})`. -/
def incStorage (db : DB) (userId : Nat) (delta : Int) : DB :=
  { db with
      users := db.users.map fun u =>
        if u.userId == userId then { u with storageUsed := u.storageUsed + delta } else u }

/-- Append journal entries (`notifier.addEntries` followed by `fire`). -/
def appendJournal (db : DB) (entries : List JournalEntry) : DB :=
  { db with journal := db.journal ++ entries }

/-- The first argument `del` hands to `updateQuota`.  In the source
`updateQuota` reads `mailboxData.user` from it; `del` passes the bare
`mailboxData._id` ObjectID, on which the `.user` property access yields
`undefined`. -/
inductive QuotaTarget
  | doc (user : Nat)
  | objectId (oid : Nat)
  deriving Repr, DecidableEq

/-- JS property access `x.user`: present on a mailbox document, `undefined`
on a bare ObjectID. -/
def QuotaTarget.userField : QuotaTarget → Option Nat
  | .doc u => some u
  | .objectId _ => none

/-- Model of `MessageHandler.updateQuota`: `users.findOneAndUpdate({_id: mailboxData.user},
{$inc: {storageUsed: inc.storageUsed}})`.  A filter on `undefined` matches no
user document. -/
def updateQuota (db : DB) (target : QuotaTarget) (delta : Int) : DB :=
  { db with
      users := db.users.map fun u =>
        if (some u.userId : Option Nat) == target.userField then
          { u with storageUsed := u.storageUsed + delta }
        else u }

/-- Deletion `messages.deleteOne(filter)`: removes the first matching document. -/
def deleteFirstMessage (p : Message → Bool) : List Message → List Message
  | [] => []
  | x :: t => if p x then t else x :: deleteFirstMessage p t

/-! ## `MessageHandler.add` and `checkExistingMessage` -/

/-- The options of one `add` call that the embedding tracks (the prepared
message is reduced to the fields the claims observe). -/
structure AddOptions where
  mailbox : Nat
  hdate : Nat
  msgid : String
  flags : List String
  size : Nat
  newId : Nat
  skipExisting : Bool
  now : Nat
  deriving Repr, DecidableEq

inductive AddStatus
  | new
  | update
  | skip
  deriving Repr, DecidableEq

/-- The result object passed to `add`'s callback on success. -/
structure AddResult where
  uidValidity : Option Nat
  uid : Nat
  id : Nat
  mailbox : Nat
  status : AddStatus
  deriving Repr, DecidableEq

/-- The duplicate probe: `messages.findOne({mailbox, hdate, msgid,
uid: {$gt: 0, $lt: mailboxData.uidNext}})`. -/
def checkExistingFind (db : DB) (mbox : Mailbox) (hdate : Nat) (msgid : String) :
    Option Message :=
  db.messages.find? fun e =>
    e.mailbox == mbox.mid && e.hdate == hdate && e.msgid == msgid &&
      decide (0 < e.uid) && decide (e.uid < mbox.uidNext)

/-- Update `messages.findOneAndUpdate({_id, mailbox, uid}, {$set: {uid, modseq, flags}},
{returnOriginal: false})`: post-image returned. -/
def messageFindAndSet (db : DB) (id mbox olduid uid modseq : Nat)
    (flags : List String) : Option (Message × DB) :=
  (db.messages.find? fun e => e.mid == id && e.mailbox == mbox && e.uid == olduid).map
    fun e =>
      ({ e with uid := uid, modseq := modseq, flags := flags },
        { db with
            messages := db.messages.map fun x =>
              if x.mid == id && x.mailbox == mbox && x.uid == olduid then
                { x with uid := uid, modseq := modseq, flags := flags }
              else x })

/-- Outcome of `checkExistingMessage`'s callback. -/
inductive CheckOutcome
  | err
  | done (r : AddResult) (db : DB)
  | continueAdd (db : DB)
  deriving Repr, DecidableEq

/-- Model of `MessageHandler.checkExistingMessage`: look for a duplicate `(hdate, msgid)`
message; skip, or replace-uid-keep-id (reserving a fresh UID+MODSEQ from the
pre-image) and journal `EXPUNGE(old)` then `EXISTS(new)`. -/
def checkExistingMessage (db : DB) (mailboxData : Mailbox) (hdate : Nat)
    (msgid : String) (flags : List String) (skipExisting : Bool) : CheckOutcome :=
  match checkExistingFind db mailboxData hdate msgid with
  | none => .continueAdd db
  | some existing =>
    if skipExisting then
      .done
        { uidValidity := none, uid := existing.uid, id := existing.mid,
          mailbox := mailboxData.mid, status := .skip } db
    else
      match reserveUidModseq db mailboxData.mid with
      | none => .err
      | some (mPre, db1) =>
        let uid := mPre.uidNext
        let modseq := mPre.modifyIndex + 1
        match messageFindAndSet db1 existing.mid mPre.mid existing.uid uid modseq flags with
        | none => .continueAdd db1
        | some (updated, db2) =>
          let db3 := appendJournal db2
            [{ mailbox := mPre.mid, command := "EXPUNGE", uid := existing.uid,
               message := existing.mid, modseq := none, unseen := existing.unseen,
               junk := none },
             { mailbox := mPre.mid, command := "EXISTS", uid := updated.uid,
               message := updated.mid, modseq := some updated.modseq,
               unseen := updated.unseen, junk := none }]
          .done
            { uidValidity := some mPre.uidValidity, uid := uid, id := existing.mid,
              mailbox := mPre.mid, status := .update } db3

inductive AddOutcome
  | err
  | ok (r : AddResult) (db : DB)
  deriving Repr, DecidableEq

/-- Model of `MessageHandler.add` (fresh path plus the duplicate path above): resolve
the mailbox, probe for a duplicate, otherwise charge quota, reserve a UID and
MODSEQ from the pre-image of the atomic increment, insert the message and
journal an `EXISTS` entry. -/
def add (db : DB) (o : AddOptions) : AddOutcome :=
  match mailboxFind db o.mailbox with
  | none => .err
  | some mailboxData =>
    match checkExistingMessage db mailboxData o.hdate o.msgid o.flags o.skipExisting with
    | .err => .err
    | .done r db1 => .ok r db1
    | .continueAdd db1 =>
      let db2 := incStorage db1 mailboxData.user (o.size : Int)
      match reserveUidModseq db2 mailboxData.mid with
      | none => .err
      | some (mPre, db3) =>
        let messageData : Message :=
          { mid := o.newId, root := o.newId, user := mPre.user, mailbox := mPre.mid,
            uid := mPre.uidNext, modseq := mPre.modifyIndex + 1,
            hdate := o.hdate, msgid := o.msgid, flags := o.flags, size := o.size,
            unseen := !(o.flags.contains "\\Seen"),
            flagged := o.flags.contains "\\Flagged",
            undeleted := !(o.flags.contains "\\Deleted"),
            draft := o.flags.contains "\\Draft",
            searchable :=
              !((mPre.specialUse == some "\\Junk" || mPre.specialUse == some "\\Trash") ||
                o.flags.contains "\\Deleted"),
            junk := mPre.specialUse == some "\\Junk",
            exp := mPre.retention != 0,
            rdate := o.now + mPre.retention }
        let db4 := { db3 with messages := db3.messages ++ [messageData] }
        let db5 := appendJournal db4
          [{ mailbox := mPre.mid, command := "EXISTS", uid := messageData.uid,
             message := messageData.mid, modseq := some messageData.modseq,
             unseen := messageData.unseen, junk := none }]
        .ok
          { uidValidity := some mPre.uidValidity, uid := messageData.uid,
            id := messageData.mid, mailbox := mPre.mid, status := .new } db5

/-! ## `MessageHandler.del` -/

/-- Model of `MessageHandler.del`: resolve the mailbox from `message.mailbox`, delete
the document keyed `(_id, mailbox, uid)`, call `updateQuota` with
`mailboxData._id` as its first argument (the source passes the bare ObjectID
where `updateQuota` expects a document carrying `.user`), then journal an
`EXPUNGE` entry. -/
def del (db : DB) (message : Message) : Option DB :=
  (mailboxFind db message.mailbox).map fun mailboxData =>
    let db1 :=
      { db with
          messages := deleteFirstMessage
            (fun e => e.mid == message.mid && e.mailbox == mailboxData.mid &&
              e.uid == message.uid) db.messages }
    let db2 := updateQuota db1 (QuotaTarget.objectId mailboxData.mid) (-(message.size : Int))
    appendJournal db2
      [{ mailbox := mailboxData.mid, command := "EXPUNGE", uid := message.uid,
         message := message.mid, modseq := none, unseen := message.unseen,
         junk := none }]

/-! ## `MessageHandler.move` -/

/-- Modelled from the spec: `consts.BULK_BATCH_SIZE` is defined in `consts.js`,
which is not part of the provided sources; §5 of the specification states that batched `move`
and `update` flushes happen every 150 messages ("source uses 150"). -/
def BULK_BATCH_SIZE : Nat := 150

/-- The caller-supplied `options.updates` bag of `move` (`expires` carries a
`Date` or `null` when the key is present). -/
structure MoveUpdates where
  seen : Option Bool
  deleted : Option Bool
  flagged : Option Bool
  draft : Option Bool
  expires : Option (Option Nat)
  deriving Repr, DecidableEq

def noMoveUpdates : MoveUpdates := ⟨none, none, none, none, none⟩

/-- JS `Array.from(new Set(flags))` after `delete fname`: removal keeps the
remaining flags in order. -/
def removeFlag (flags : List String) (fname : String) : List String :=
  flags.filter (fun f => f != fname)

/-- One `case 'seen' | 'deleted'` branch of the `move` update switch.  The
source adds the flag when the update value is false and removes it when true,
and assigns `message['un' + key] = options.updates[key]` verbatim. -/
def moveApplySeenDeleted (v : Bool) (fname : String) (flags : List String) :
    List String :=
  if !v && !(flags.contains fname) then flags ++ [fname]
  else if v && flags.contains fname then removeFlag flags fname
  else flags

/-- One `case 'flagged' | 'draft'` branch of the `move` update switch. -/
def moveApplyFlaggedDraft (v : Bool) (fname : String) (flags : List String) :
    List String :=
  if v && !(flags.contains fname) then flags ++ [fname]
  else if !v && flags.contains fname then removeFlag flags fname
  else flags

/-- The `Object.keys(options.updates).forEach` switch of `move`, applied in
the key order `seen, deleted, flagged, draft, expires`. -/
def applyMoveUpdates (u : MoveUpdates) (m : Message) : Message :=
  let m := match u.seen with
    | none => m
    | some v => { m with flags := moveApplySeenDeleted v "\\Seen" m.flags, unseen := v }
  let m := match u.deleted with
    | none => m
    | some v => { m with flags := moveApplySeenDeleted v "\\Deleted" m.flags, undeleted := v }
  let m := match u.flagged with
    | none => m
    | some v => { m with flags := moveApplyFlaggedDraft v "\\Flagged" m.flags, flagged := v }
  let m := match u.draft with
    | none => m
    | some v => { m with flags := moveApplyFlaggedDraft v "\\Draft" m.flags, draft := v }
  match u.expires with
  | none => m
  | some (some t) => { m with exp := true, rdate := t }
  | some none => { m with exp := false }

structure MoveOptions where
  source : Nat
  destination : Nat
  messages : List Nat
  updates : MoveUpdates
  markAsSeen : Bool
  now : Nat
  deriving Repr, DecidableEq

structure MoveResult where
  uidValidity : Nat
  sourceUid : List Nat
  destinationUid : List Nat
  mailbox : Nat
  deriving Repr, DecidableEq

instance : DecidableRel (fun (a b : Message) => a.uid ≤ b.uid) :=
  fun a b => Nat.decLe a.uid b.uid

/-- The mutation one cursor message undergoes in `move`'s loop body before it
is inserted into the destination (message-handler.js lines 650–742): fresh
`_id`, destination mailbox/UID, `modseq = 0`, destination retention,
`searchable` recomputed (cleared for Junk/Trash destinations or deleted
messages), `junk` adjusted per destination `specialUse`, then the caller
`updates` and the optional `markAsSeen`. -/
def movedMessage (target : Mailbox) (o : MoveOptions) (fresh uidNext : Nat)
    (m : Message) : Message :=
  let m2 := { m with
    mid := fresh, mailbox := target.mid, uid := uidNext,
    modseq := 0, exp := target.retention != 0,
    rdate := o.now + target.retention }
  let m2 :=
    if (target.specialUse == some "\\Junk" || target.specialUse == some "\\Trash") ||
        !m2.undeleted then
      { m2 with searchable := false }
    else { m2 with searchable := true }
  let m2 :=
    if target.specialUse == some "\\Junk" && !m2.junk then { m2 with junk := true }
    else if target.specialUse != some "\\Trash" && m2.junk then { m2 with junk := false }
    else m2
  let m2 := applyMoveUpdates o.updates m2
  if o.markAsSeen then
    { m2 with
      unseen := false,
      flags := if m2.flags.contains "\\Seen" then m2.flags else m2.flags ++ ["\\Seen"] }
  else m2

/-- The `junk` delta recorded on `move`'s `EXISTS` journal entry; the source
computes it from the message's `junk` column before the adjustment (the
`searchable` step it follows does not touch `junk`). -/
def moveJunkDelta (target : Mailbox) (m : Message) : Int :=
  if target.specialUse == some "\\Junk" && !m.junk then 1
  else if target.specialUse != some "\\Trash" && m.junk then -1
  else 0

/-- The `EXPUNGE` journal entry `move` records for one source message; its
`unseen` is captured before the flag updates are applied (line 673). -/
def moveExpungeEntry (srcId : Nat) (m : Message) : JournalEntry :=
  { mailbox := srcId, command := "EXPUNGE", uid := m.uid, message := m.mid,
    modseq := none, unseen := m.unseen, junk := none }

/-- The `EXISTS` journal entry `move` records for one inserted copy; `uid` is
the reserved destination UID, `message` the fresh inserted id, `unseen` the
post-update value. -/
def moveExistsEntry (target : Mailbox) (o : MoveOptions) (fresh uidNext : Nat)
    (m : Message) : JournalEntry :=
  { mailbox := target.mid, command := "EXISTS", uid := uidNext, message := fresh,
    modseq := none, unseen := (movedMessage target o fresh uidNext m).unseen,
    junk := if moveJunkDelta target m != 0 then some (moveJunkDelta target m) else none }

/-- The per-message body of `move`'s cursor loop together with the final
flush of `done`: the accumulated `EXPUNGE` entries are written to the source
mailbox's journal scope first, then the `EXISTS` entries to the destination's.
`mailboxData`/`target` are the records looked up once at the start; each
iteration re-reads the destination through `bumpUidNext` (pre-image). -/
def moveLoop (srcId : Nat) (target : Mailbox) (o : MoveOptions) :
    List Message → DB → List Nat → List Nat → List JournalEntry → List JournalEntry →
      Nat → Option (DB × List Nat × List Nat)
  | [], db, su, du, re, ee, _ =>
    if ee.length != 0 then some (appendJournal (appendJournal db re) ee, su, du)
    else some (db, su, du)
  | m :: rest, db, su, du, re, ee, fresh =>
    let su := su ++ [m.uid]
    match bumpUidNext db target.mid with
    | none => none
    | some (tPre, db1) =>
      let uidNext := tPre.uidNext
      let du := du ++ [uidNext]
      let m2 := movedMessage target o fresh uidNext m
      let db2 := { db1 with messages := db1.messages ++ [m2] }
      let db3 :=
        { db2 with
            messages := deleteFirstMessage
              (fun e => e.mid == m.mid && e.mailbox == srcId && e.uid == m.uid)
              db2.messages }
      let re := re ++ [moveExpungeEntry srcId m]
      let ee := ee ++ [moveExistsEntry target o fresh uidNext m]
      if BULK_BATCH_SIZE ≤ ee.length then
        moveLoop srcId target o rest (appendJournal (appendJournal db3 re) ee) su du [] []
          (fresh + 1)
      else moveLoop srcId target o rest db3 su du re ee (fresh + 1)

/-- The cursor of `move` and `onCopy` over the source mailbox: the matching
messages sorted by UID ascending. -/
def moveCursor (db : DB) (srcId : Nat) (uids : List Nat) : List Message :=
  List.insertionSort (fun a b => a.uid ≤ b.uid)
    (db.messages.filter fun m => m.mailbox == srcId && uids.contains m.uid)

/-- Model of `MessageHandler.move`: resolve both mailboxes, bump the source
`modifyIndex`, then stream the matching source messages in UID-ascending
order through the loop above. -/
def move (db : DB) (o : MoveOptions) (freshBase : Nat) : Option (MoveResult × DB) :=
  match mailboxFind db o.source with
  | none => none
  | some mailboxData =>
    match mailboxFind db o.destination with
    | none => none
    | some target =>
      let db1 := bumpModifyIndex db mailboxData.mid
      let msgs := moveCursor db1 mailboxData.mid o.messages
      (moveLoop mailboxData.mid target o msgs db1 [] [] [] [] freshBase).map
        fun p =>
          let (db2, su, du) := p
          ({ uidValidity := target.uidValidity, sourceUid := su, destinationUid := du,
             mailbox := mailboxData.mid }, db2)

/-- The `(EXPUNGE, EXISTS)` journal-entry pair `move` produces for each
processed message, in processing order, with the fresh ids and destination
UIDs advancing by one per message. -/
def movePairs (srcId : Nat) (target : Mailbox) (o : MoveOptions) :
    List Message → Nat → Nat → List (JournalEntry × JournalEntry)
  | [], _, _ => []
  | m :: rest, fresh, u =>
    (moveExpungeEntry srcId m, moveExistsEntry target o fresh u m) ::
      movePairs srcId target o rest (fresh + 1) (u + 1)

/-- The batched journal layout of `move`: the pairs are split into
consecutive chunks of `BULK_BATCH_SIZE`, and each chunk contributes all its
`EXPUNGE` entries followed by all its `EXISTS` entries, in order. -/
def flushBlocks (P : List (JournalEntry × JournalEntry)) : List JournalEntry :=
  if h : P = [] then []
  else
    (P.take BULK_BATCH_SIZE).map Prod.fst ++ (P.take BULK_BATCH_SIZE).map Prod.snd ++
      flushBlocks (P.drop BULK_BATCH_SIZE)
termination_by P.length
decreasing_by
  have hlen : P.length ≠ 0 := fun hl => h (List.eq_nil_of_length_eq_zero hl)
  simp only [List.length_drop, BULK_BATCH_SIZE]
  omega

/-- The journal contribution of `moveLoop` from a carry `(re, ee)` and the
remaining entry pairs, mirroring the loop's accumulate-and-flush behaviour. -/
def layoutAux : List JournalEntry → List JournalEntry →
    List (JournalEntry × JournalEntry) → List JournalEntry
  | re, ee, [] => if ee.length != 0 then re ++ ee else []
  | re, ee, p :: rest =>
    if BULK_BATCH_SIZE ≤ ee.length + 1 then
      (re ++ [p.1]) ++ (ee ++ [p.2]) ++ layoutAux [] [] rest
    else layoutAux (re ++ [p.1]) (ee ++ [p.2]) rest

/-! ## `onCopy` (`lib/handlers/on-copy.js`) -/

structure CopyResult where
  uidValidity : Nat
  sourceUid : List Nat
  destinationUid : List Nat
  deriving Repr, DecidableEq

/-- The mutation of one cursor message into the inserted copy: fresh `_id`,
destination mailbox and UID, destination retention, `searchable`/`junk`
recomputed from the destination's `specialUse`.  `root` and the content
fields are untouched. -/
def copyMessage (target : Mailbox) (now fresh uidNext : Nat) (m : Message) : Message :=
  let m := { m with
    mid := fresh, mailbox := target.mid, uid := uidNext,
    exp := target.retention != 0, rdate := now + target.retention }
  let m :=
    if target.specialUse == some "\\Junk" || target.specialUse == some "\\Trash" then
      { m with searchable := false }
    else { m with searchable := true }
  if target.specialUse == some "\\Junk" && !m.junk then { m with junk := true }
  else if target.specialUse != some "\\Trash" && m.junk then { m with junk := false }
  else m

/-- The `junk` delta recorded on the copy's `EXISTS` journal entry. -/
def copyJunkDelta (target : Mailbox) (m : Message) : Option Int :=
  if target.specialUse == some "\\Junk" && !m.junk then some 1
  else if target.specialUse != some "\\Trash" && m.junk then some (-1)
  else none

/-- The cursor loop of `onCopy`: `sourceUid.unshift(message.uid)`, reserve the
destination UID (pre-image), `destinationUid.unshift(uidNext)`, insert the
copy, journal its `EXISTS` entry. -/
def onCopyLoop (target : Mailbox) (now : Nat) :
    List Message → DB → List Nat → List Nat → Nat → Option (DB × List Nat × List Nat)
  | [], db, su, du, _ => some (db, su, du)
  | m :: rest, db, su, du, fresh =>
    let su := m.uid :: su
    match bumpUidNext db target.mid with
    | none => none
    | some (tPre, db1) =>
      let uidNext := tPre.uidNext
      let du := uidNext :: du
      let c := copyMessage target now fresh uidNext m
      let db2 := { db1 with messages := db1.messages ++ [c] }
      let db3 := appendJournal db2
        [{ mailbox := target.mid, command := "EXISTS", uid := c.uid, message := c.mid,
           modseq := none, unseen := c.unseen, junk := copyJunkDelta target m }]
      onCopyLoop target now rest db3 su du (fresh + 1)

/-- Model of `onCopy`: resolve source and destination by `(user, path)`, stream the
matching source messages in UID-ascending order, copy each, then charge the
user's quota by the accumulated copied storage. -/
def onCopy (db : DB) (userId : Nat) (srcPath destPath : String) (uids : List Nat)
    (now freshBase : Nat) : Option (CopyResult × DB) :=
  match db.mailboxes.find? (fun m => m.user == userId && m.path == srcPath) with
  | none => none
  | some mailbox =>
    match db.mailboxes.find? (fun m => m.user == userId && m.path == destPath) with
    | none => none
    | some target =>
      let msgs := List.insertionSort (fun a b => a.uid ≤ b.uid)
        (db.messages.filter fun m => m.mailbox == mailbox.mid && uids.contains m.uid)
      (onCopyLoop target now msgs db [] [] freshBase).map fun p =>
        let (db1, su, du) := p
        let copiedStorage : Int := (msgs.map fun m => (m.size : Int)).sum
        let db2 :=
          if msgs.length != 0 then incStorage db1 mailbox.user copiedStorage else db1
        ({ uidValidity := target.uidValidity, sourceUid := su, destinationUid := du },
          db2)

/-! ## `MessageHandler.update`: building and applying the update document -/

/-- The recognized keys of the `changes` bag of `MessageHandler.update`. -/
structure UpdateChanges where
  seen : Option Bool
  deleted : Option Bool
  flagged : Option Bool
  draft : Option Bool
  expires : Option (Option Nat)
  deriving Repr, DecidableEq

/-- The `$set`/`$addToSet`/`$pull` update document assembled by
`MessageHandler.update`.  `setDraft` is the `$set.draft` slot of the messages
collection; the source never writes it (its `draft` branch assigns
`updates.$set.flagged = changes.draft`). -/
structure UpdateDoc where
  setUnseen : Option Bool
  setUndeleted : Option Bool
  setFlagged : Option Bool
  setDraft : Option Bool
  setExp : Option Bool
  setRdate : Option Nat
  addFlags : List String
  removeFlags : List String
  deriving Repr, DecidableEq

/-- The `Object.keys(changes).forEach` switch of `MessageHandler.update`,
keys visited in the order `seen, deleted, flagged, draft, expires`.  Returns
`none` when no key was recognized (`Nothing was changed`). -/
def buildUpdateDoc (changes : UpdateChanges) : Option UpdateDoc :=
  let d : UpdateDoc := ⟨none, none, none, none, none, none, [], []⟩
  let upd := false
  let (d, upd) := match changes.seen with
    | none => (d, upd)
    | some v =>
      ({ d with
          setUnseen := some (!v),
          addFlags := if v then d.addFlags ++ ["\\Seen"] else d.addFlags,
          removeFlags := if v then d.removeFlags else d.removeFlags ++ ["\\Seen"] }, true)
  let (d, upd) := match changes.deleted with
    | none => (d, upd)
    | some v =>
      ({ d with
          setUndeleted := some (!v),
          addFlags := if v then d.addFlags ++ ["\\Deleted"] else d.addFlags,
          removeFlags := if v then d.removeFlags else d.removeFlags ++ ["\\Deleted"] }, true)
  let (d, upd) := match changes.flagged with
    | none => (d, upd)
    | some v =>
      ({ d with
          setFlagged := some v,
          addFlags := if v then d.addFlags ++ ["\\Flagged"] else d.addFlags,
          removeFlags := if v then d.removeFlags else d.removeFlags ++ ["\\Flagged"] }, true)
  let (d, upd) := match changes.draft with
    | none => (d, upd)
    | some v =>
      ({ d with
          setFlagged := some v,
          addFlags := if v then d.addFlags ++ ["\\Draft"] else d.addFlags,
          removeFlags := if v then d.removeFlags else d.removeFlags ++ ["\\Draft"] }, true)
  let (d, upd) := match changes.expires with
    | none => (d, upd)
    | some (some t) => ({ d with setExp := some true, setRdate := some t }, true)
    | some none => ({ d with setExp := some false }, true)
  if upd then some d else none

/-- Apply the update document to one matched message: `$set` columns, then
`$addToSet {flags: {$each}}` (append the missing ones in order), then
`$pull {flags: {$in}}`. -/
def applyUpdateDoc (d : UpdateDoc) (modseq : Nat) (m : Message) : Message :=
  let m := { m with modseq := modseq }
  let m := match d.setUnseen with | none => m | some v => { m with unseen := v }
  let m := match d.setUndeleted with | none => m | some v => { m with undeleted := v }
  let m := match d.setFlagged with | none => m | some v => { m with flagged := v }
  let m := match d.setDraft with | none => m | some v => { m with draft := v }
  let m := match d.setExp with | none => m | some v => { m with exp := v }
  let m := match d.setRdate with | none => m | some v => { m with rdate := v }
  let m := { m with flags := m.flags ++ d.addFlags.filter (fun f => !(m.flags.contains f)) }
  { m with flags := m.flags.filter (fun f => !(d.removeFlags.contains f)) }

/-! ## `add`'s derived `html[]` truncation -/

/-- The `maildata.html.map(...)` body of `add` (lines 202–218): an entry is
replaced by the empty string once the budget is consumed or when it is empty,
kept whole when it still fits, and otherwise cut by
`substr(0, htmlSize + byteLength(html) - MAX_HTML_CONTENT)`; the source
reassigns `html` to the cut string before `htmlSize += Buffer.byteLength(html)`,
so in that branch the counter grows by the byte length of the cut string.
Strings are modelled as byte lists. -/
def truncateHtmlMap (maxHtml : Nat) : Nat → List (List Char) → List (List Char)
  | _, [] => []
  | htmlSize, h :: t =>
    if maxHtml ≤ htmlSize || h.isEmpty then
      [] :: truncateHtmlMap maxHtml htmlSize t
    else if htmlSize + h.length ≤ maxHtml then
      h :: truncateHtmlMap maxHtml (htmlSize + h.length) t
    else
      h.take (htmlSize + h.length - maxHtml) ::
        truncateHtmlMap maxHtml (htmlSize + (h.take (htmlSize + h.length - maxHtml)).length) t

/-- Field `messageData.html`: the map above followed by `.filter(html => html)`,
which drops empty strings. -/
def truncateHtml (maxHtml : Nat) (hs : List (List Char)) : List (List Char) :=
  (truncateHtmlMap maxHtml 0 hs).filter (fun h => !h.isEmpty)

/-! ## `add`'s derived `intro` field -/

/-- JS `\s` for the character classes appearing in the stored text
(ASCII whitespace). -/
def isJsWs (c : Char) : Bool :=
  c = ' ' || c = '\t' || c = '\n' || c = '\r' || c = '\x0b' || c = '\x0c'

/-- Worker for `collapseWs`; the flag records whether the previous character
was part of a whitespace run already replaced. -/
def collapseWsAux : Bool → List Char → List Char
  | _, [] => []
  | prevWs, c :: t =>
    if isJsWs c then
      if prevWs then collapseWsAux true t else ' ' :: collapseWsAux true t
    else c :: collapseWsAux false t

/-- Model of `replace(/\s+/g, ' ')`: every maximal whitespace run becomes one space. -/
def collapseWs (l : List Char) : List Char := collapseWsAux false l

/-- Model of `String.prototype.trim`. -/
def trimWs (l : List Char) : List Char :=
  ((l.dropWhile isJsWs).reverse.dropWhile isJsWs).reverse

/-- Model of `String.prototype.lastIndexOf(' ')` (−1 when absent). -/
def lastSpaceIndex (l : List Char) : Int :=
  match l.reverse.findIdx? (fun c => c = ' ') with
  | none => -1
  | some i => (l.length : Int) - 1 - (i : Int)

/-- The `intro` computation of `add` (lines 191–199) on the stored
`messageData.text`: collapse whitespace, trim, and if longer than 128
characters cut at 128, back off to the last space when one exists at a
positive index, and append the ellipsis character. -/
def makeIntro (text : List Char) : List Char :=
  let intro := trimWs (collapseWs text)
  if 128 < intro.length then
    let cut := intro.take 128
    let lastSp := lastSpaceIndex cut
    let cut := if 0 < lastSp then cut.take lastSp.toNat else cut
    cut ++ ['…']
  else intro

/-! ## SASL PLAIN argument handling (`authenticate` in the AUTHENTICATE
PLAIN command handler) -/

/-- Value of one base64 alphabet character. -/
def b64Val (c : Char) : Option Nat :=
  if 'A' ≤ c && c ≤ 'Z' then some (c.toNat - 'A'.toNat)
  else if 'a' ≤ c && c ≤ 'z' then some (c.toNat - 'a'.toNat + 26)
  else if '0' ≤ c && c ≤ '9' then some (c.toNat - '0'.toNat + 52)
  else if c = '+' then some 62
  else if c = '/' then some 63
  else none

/-- Bit-accumulating base64 decode: emit a byte whenever eight bits are
available, exactly as Node's lenient `Buffer.from(token, 'base64')` does for
unpadded input (trailing bits short of a byte are discarded). -/
def b64DecodeCore : List Nat → Nat → Nat → List Nat
  | [], _, _ => []
  | v :: t, acc, nbits =>
    let acc := acc * 64 + v
    let nbits := nbits + 6
    if 8 ≤ nbits then
      (acc / 2 ^ (nbits - 8)) % 256 :: b64DecodeCore t (acc % 2 ^ (nbits - 8)) (nbits - 8)
    else b64DecodeCore t acc nbits

/-- Model of `new Buffer(token, 'base64')` as a byte list (non-alphabet characters are
ignored by the lenient decoder). -/
def base64Decode (token : String) : List Nat :=
  b64DecodeCore (token.data.filterMap b64Val) 0 0

/-- Model of `.split('\x00')` over the decoded bytes: NUL-separated segments, adjacent
separators yielding empty segments, as for JS strings. -/
def splitNul (l : List Nat) : List (List Nat) :=
  match l with
  | [] => [[]]
  | b :: t =>
    match splitNul t with
    | [] => [[]]
    | seg :: rest => if b = 0 then [] :: seg :: rest else (b :: seg) :: rest

/-- Outcome of the `authenticate` helper before `onAuth` is consulted. -/
inductive SaslOutcome
  | badInvalidArgument
  | creds (username password : List Nat)
  deriving Repr, DecidableEq

/-- JS `trim()` on the credential bytes. -/
def trimBytes (l : List Nat) : List Nat :=
  ((l.dropWhile (fun b => b = 32 || b = 9 || b = 10 || b = 13)).reverse.dropWhile
    (fun b => b = 32 || b = 9 || b = 10 || b = 13)).reverse

/-- Model of `authenticate(connection, token, callback)`: decode the token, split on
NUL; anything but exactly three fields is answered with
`BAD Invalid SASL argument`, otherwise fields 1 and 2 are trimmed and passed
to `onAuth`. -/
def saslPlainCheck (token : String) : SaslOutcome :=
  let data := splitNul (base64Decode token)
  if data.length != 3 then .badInvalidArgument
  else .creds (trimBytes (data.getD 1 [])) (trimBytes (data.getD 2 []))

/-! ## SSE journal frame formatting (`formatJournalData`) -/

/-- Keys never copied into the `data:` payload. -/
def sseOmittedKeys : List String :=
  ["_id", "ignore", "user", "modseq", "unseenChange", "created"]

/-- A raw journal document as handed to `formatJournalData`, modelled as an
association list in key order (JS objects have no duplicate keys). -/
abbrev JsDoc := List (String × String)

/-- JS property access `e[key]` (first binding wins). -/
def jsGet (e : JsDoc) (k : String) : Option String :=
  (e.find? (fun kv => kv.fst == k)).map (·.snd)

/-- The `data` object built by `formatJournalData`: every key except the
omitted ones, and `unseen` only when `e.command === 'COUNTERS'`; values are
copied unchanged.  The second component is the `id:` line's payload, present
exactly when `e._id` is. -/
def formatJournalData (e : JsDoc) : JsDoc × Option String :=
  (e.filter fun kv =>
      !(sseOmittedKeys.contains kv.fst) &&
        !(jsGet e "command" != some "COUNTERS" && kv.fst == "unseen"),
    jsGet e "_id")

/-! ## Auxiliary definitions for the verification -/

instance : IsTotal Message (fun a b => a.uid ≤ b.uid) :=
  ⟨fun a b => Nat.le_total a.uid b.uid⟩

instance : IsTrans Message (fun a b => a.uid ≤ b.uid) :=
  ⟨fun _ _ _ h1 h2 => Nat.le_trans h1 h2⟩

/-- The database returned (next to the pre-image) by `bumpUidNext`. -/
def bumpedDb (db : DB) (mboxId : Nat) : DB :=
  { db with
      mailboxes := db.mailboxes.map fun x =>
        if x.mid == mboxId then { x with uidNext := x.uidNext + 1 } else x }

/-- The list of copies inserted by `onCopyLoop` for a message list, with the
fresh ids and destination UIDs advancing by one per message. -/
def copiesFrom (target : Mailbox) (now : Nat) : Nat → Nat → List Message → List Message
  | _, _, [] => []
  | fresh, u0, m :: rest =>
    copyMessage target now fresh u0 m :: copiesFrom target now (fresh + 1) (u0 + 1) rest

/-- The property verified for `move`: source messages are processed in
source-UID ascending order; the returned `sourceUid` lists the processed
messages' UIDs in that order and `destinationUid` the reserved destination
UIDs in the same order, so the arrays are index-paired; and the journal
receives, per flush batch, all `EXPUNGE` entries (source scope, UID
ascending) followed by all `EXISTS` entries (destination scope) in the same
pairing order — the layout `flushBlocks` of the per-message entry pairs. -/
def moveBatchedSpec (db : DB) (o : MoveOptions) (freshBase : Nat)
    (mailboxData target t : Mailbox) : Prop :=
  ∃ db2,
    move db o freshBase =
      some ({ uidValidity := target.uidValidity,
              sourceUid := (moveCursor (bumpModifyIndex db mailboxData.mid)
                mailboxData.mid o.messages).map Message.uid,
              destinationUid := List.range' t.uidNext
                (moveCursor (bumpModifyIndex db mailboxData.mid)
                  mailboxData.mid o.messages).length,
              mailbox := mailboxData.mid }, db2) ∧
    List.Pairwise (fun a b => a < b)
      ((moveCursor (bumpModifyIndex db mailboxData.mid)
        mailboxData.mid o.messages).map Message.uid) ∧
    List.Pairwise (fun a b => a < b)
      (List.range' t.uidNext
        (moveCursor (bumpModifyIndex db mailboxData.mid)
          mailboxData.mid o.messages).length) ∧
    ((moveCursor (bumpModifyIndex db mailboxData.mid)
      mailboxData.mid o.messages).map Message.uid).length =
      (List.range' t.uidNext
        (moveCursor (bumpModifyIndex db mailboxData.mid)
          mailboxData.mid o.messages).length).length ∧
    (movePairs mailboxData.mid target o
      (moveCursor (bumpModifyIndex db mailboxData.mid) mailboxData.mid o.messages)
      freshBase t.uidNext).map (fun p => p.1.uid) =
      (moveCursor (bumpModifyIndex db mailboxData.mid)
        mailboxData.mid o.messages).map Message.uid ∧
    (movePairs mailboxData.mid target o
      (moveCursor (bumpModifyIndex db mailboxData.mid) mailboxData.mid o.messages)
      freshBase t.uidNext).map (fun p => p.2.uid) =
      List.range' t.uidNext
        (moveCursor (bumpModifyIndex db mailboxData.mid)
          mailboxData.mid o.messages).length ∧
    (∀ p ∈ movePairs mailboxData.mid target o
        (moveCursor (bumpModifyIndex db mailboxData.mid) mailboxData.mid o.messages)
        freshBase t.uidNext,
      p.1.command = "EXPUNGE" ∧ p.1.mailbox = mailboxData.mid ∧
        p.2.command = "EXISTS" ∧ p.2.mailbox = target.mid) ∧
    db2.journal = db.journal ++
      flushBlocks (movePairs mailboxData.mid target o
        (moveCursor (bumpModifyIndex db mailboxData.mid) mailboxData.mid o.messages)
        freshBase t.uidNext)

/-- The property verified for `onCopy`: the returned arrays are equally long,
index-paired (entry `i` of `destinationUid` is the UID under which the copy of
the source message with UID `sourceUid[i]` was stored in the destination), and
both are ordered by source UID descending. -/
def copyPairedDescending (db : DB) (userId : Nat) (srcPath destPath : String)
    (uids : List Nat) (now freshBase : Nat) (target : Mailbox) : Prop :=
  ∃ su du db2,
    onCopy db userId srcPath destPath uids now freshBase =
      some ({ uidValidity := target.uidValidity, sourceUid := su,
              destinationUid := du }, db2) ∧
    su.length = du.length ∧
    List.Pairwise (fun a b => b < a) su ∧
    List.Pairwise (fun a b => b < a) du ∧
    ∀ i (hi : i < su.length) (hi2 : i < du.length),
      ∃ m, m ∈ db.messages ∧ ∃ c, c ∈ db2.messages ∧
        m.uid = su.get ⟨i, hi⟩ ∧ c.mailbox = target.mid ∧ c.uid = du.get ⟨i, hi2⟩ ∧
        c.root = m.root ∧ c.msgid = m.msgid ∧ c.size = m.size ∧ c.hdate = m.hdate

/-- The message inserted by `add`'s fresh path when the reservation pre-image
is `m` (the structure literal of `add` with `mPre = m`). -/
def addFreshMessage (m : Mailbox) (o : AddOptions) : Message :=
  { mid := o.newId, root := o.newId, user := m.user, mailbox := m.mid,
    uid := m.uidNext, modseq := m.modifyIndex + 1,
    hdate := o.hdate, msgid := o.msgid, flags := o.flags, size := o.size,
    unseen := !(o.flags.contains "\\Seen"),
    flagged := o.flags.contains "\\Flagged",
    undeleted := !(o.flags.contains "\\Deleted"),
    draft := o.flags.contains "\\Draft",
    searchable :=
      !((m.specialUse == some "\\Junk" || m.specialUse == some "\\Trash") ||
        o.flags.contains "\\Deleted"),
    junk := m.specialUse == some "\\Junk",
    exp := m.retention != 0,
    rdate := o.now + m.retention }

/-- The database produced by a fresh `add` into a database holding a single
mailbox `m` and nothing else. -/
def addFreshDb (m : Mailbox) (o : AddOptions) : DB :=
  { mailboxes := [{ m with uidNext := m.uidNext + 1, modifyIndex := m.modifyIndex + 1 }],
    messages := [addFreshMessage m o],
    users := [],
    journal := [{ mailbox := m.mid, command := "EXISTS", uid := m.uidNext,
                  message := o.newId, modseq := some (m.modifyIndex + 1),
                  unseen := !(o.flags.contains "\\Seen"), junk := none }] }

/-- The database after the duplicate-replace `add` that follows the fresh one
(for a mailbox that started at tip `(5, 10)`). -/
def dupDb2 (mb : Mailbox) (o : AddOptions) : DB :=
  { mailboxes := [{ mb with uidNext := 7, modifyIndex := 12 }],
    messages := [{ addFreshMessage mb o with uid := 6, modseq := 12, flags := o.flags }],
    users := [],
    journal :=
      [{ mailbox := mb.mid, command := "EXISTS", uid := 5, message := o.newId,
         modseq := some 11, unseen := !(o.flags.contains "\\Seen"), junk := none },
       { mailbox := mb.mid, command := "EXPUNGE", uid := 5, message := o.newId,
         modseq := none, unseen := !(o.flags.contains "\\Seen"), junk := none },
       { mailbox := mb.mid, command := "EXISTS", uid := 6, message := o.newId,
         modseq := some 12, unseen := !(o.flags.contains "\\Seen"), junk := none }] }

/-! ### Concrete scenario inputs -/

/-- A mailbox at tip `(uidNext 5, modifyIndex 10)`. -/
def mbC2 : Mailbox :=
  { mid := 1, user := 42, path := "INBOX", uidNext := 5, modifyIndex := 10,
    uidValidity := 99, specialUse := none, retention := 0 }

def dbC2 : DB := { mailboxes := [mbC2], messages := [], users := [], journal := [] }

/-- Source mailbox of the S3 move scenario, tip `(10, 20)`. -/
def mbSrc3 : Mailbox :=
  { mid := 1, user := 42, path := "A", uidNext := 10, modifyIndex := 20,
    uidValidity := 77, specialUse := none, retention := 0 }

/-- Destination mailbox of the S3 move scenario, tip `(3, 4)`. -/
def mbDst3 : Mailbox :=
  { mid := 2, user := 42, path := "B", uidNext := 3, modifyIndex := 4,
    uidValidity := 88, specialUse := none, retention := 0 }

def msgC3a : Message :=
  { mid := 201, root := 201, user := 42, mailbox := 1, uid := 7, modseq := 15,
    hdate := 1, msgid := "<a@b>", flags := [], size := 10, unseen := true,
    flagged := false, undeleted := true, draft := false, searchable := true,
    junk := false, exp := false, rdate := 0 }

def msgC3b : Message := { msgC3a with mid := 202, root := 202, uid := 9, msgid := "<c@d>" }

def dbC3 : DB :=
  { mailboxes := [mbSrc3, mbDst3], messages := [msgC3a, msgC3b], users := [], journal := [] }

def moC3 : MoveOptions :=
  { source := 1, destination := 2, messages := [7, 9], updates := noMoveUpdates,
    markAsSeen := false, now := 1000 }

def userC5 : UserRec := { userId := 42, storageUsed := 1000 }

def mbC5 : Mailbox :=
  { mid := 1, user := 42, path := "INBOX", uidNext := 9, modifyIndex := 3,
    uidValidity := 1, specialUse := none, retention := 0 }

def msgC5 : Message := { msgC3a with mid := 7, mailbox := 1, uid := 5, size := 100 }

def dbC5 : DB := { mailboxes := [mbC5], messages := [msgC5], users := [userC5], journal := [] }

/-- Input `changes = {draft: true}`. -/
def chC6 : UpdateChanges :=
  { seen := none, deleted := none, flagged := none, draft := some true, expires := none }

/-- A matched message with no flags and both boolean columns false. -/
def msgC6 : Message := { msgC3a with flags := [], flagged := false, draft := false }

def htmlC7a : List Char := ['a', 'b']

def htmlC7b : List Char := ['a', 'b', 'c', 'd', 'e', 'f', 'g', 'h']

/-- Text of 129 characters with no whitespace. -/
def tC8 : List Char := List.replicate 129 'a'

/-- A text whose collapsed form is longer than 128 characters and has a word
boundary inside the first 128. -/
def tC8w : List Char := List.replicate 60 'a' ++ [' '] ++ List.replicate 100 'b'

/-- A journal document with both retained and omitted keys. -/
def eC9 : JsDoc :=
  [("command", "EXISTS"), ("uid", "5"), ("_id", "65a"), ("user", "u1"),
   ("unseen", "true"), ("modseq", "12")]

def dbC10 : DB :=
  { mailboxes := [mbSrc3, mbDst3], messages := [msgC3a, msgC3b],
    users := [{ userId := 42, storageUsed := 0 }], journal := [] }

/-! ## Helper lemmas -/

/-- Lookup `find?` by mailbox id over a list whose matching entries were rewritten by
an id-preserving update returns the rewritten first match. -/
theorem find_map_keyUpdate (l : List Mailbox) (mboxId : Nat) (f : Mailbox → Mailbox)
    (hf : ∀ x, (f x).mid = x.mid) (m : Mailbox)
    (h : l.find? (fun x => x.mid == mboxId) = some m) :
    (l.map fun x => if x.mid == mboxId then f x else x).find? (fun x => x.mid == mboxId)
      = some (f m) := by
  induction l with
  | nil => simp at h
  | cons a t ih =>
    by_cases hpa : (a.mid == mboxId) = true
    · have h1 : List.find? (fun x : Mailbox => x.mid == mboxId) (a :: t) = some a :=
        List.find?_cons_of_pos t hpa
      rw [h1] at h
      injection h with h
      subst h
      have h2 : ((f a).mid == mboxId) = true := by
        rw [hf a]
        exact hpa
      simp only [List.map_cons, if_pos hpa]
      exact List.find?_cons_of_pos _ h2
    · have h1 : List.find? (fun x : Mailbox => x.mid == mboxId) (a :: t) =
          List.find? (fun x : Mailbox => x.mid == mboxId) t :=
        List.find?_cons_of_neg t hpa
      rw [h1] at h
      simp only [List.map_cons, if_neg hpa]
      have h3 : List.find? (fun x : Mailbox => x.mid == mboxId)
          (a :: t.map fun x => if (x.mid == mboxId) = true then f x else x) =
          List.find? (fun x : Mailbox => x.mid == mboxId)
            (t.map fun x => if (x.mid == mboxId) = true then f x else x) :=
        List.find?_cons_of_neg _ hpa
      rw [h3]
      exact ih h

/-- Reading an element of a reversed list. -/
theorem get_reverse_aux {α : Type _} (l : List α) (i : Nat) (h : i < l.reverse.length)
    (h2 : l.length - 1 - i < l.length) :
    l.reverse.get ⟨i, h⟩ = l.get ⟨l.length - 1 - i, h2⟩ := by
  simp [List.get_eq_getElem, List.getElem_reverse]

theorem bumpUidNext_eq (db : DB) (mboxId : Nat) :
    bumpUidNext db mboxId = (mailboxFind db mboxId).map fun m => (m, bumpedDb db mboxId) :=
  rfl

theorem mailboxFind_bumpedDb (db : DB) (mboxId : Nat) (t : Mailbox)
    (ht : mailboxFind db mboxId = some t) :
    mailboxFind (bumpedDb db mboxId) mboxId = some { t with uidNext := t.uidNext + 1 } := by
  show List.find? (fun x => x.mid == mboxId)
      (db.mailboxes.map fun x =>
        if x.mid == mboxId then { x with uidNext := x.uidNext + 1 } else x) = some _
  exact find_map_keyUpdate db.mailboxes mboxId
    (fun x => { x with uidNext := x.uidNext + 1 }) (fun _ => rfl) t ht

/-- The index returned by `lastIndexOf(' ')` is below the list length. -/
theorem lastSpaceIndex_lt (l : List Char) : lastSpaceIndex l < (l.length : Int) := by
  unfold lastSpaceIndex
  cases h : l.reverse.findIdx? (fun c => c = ' ') with
  | none => simp only [h]; omega
  | some i => simp only [h]; omega

/-- Computation of a fresh `add` into a one-mailbox database. -/
theorem add_fresh_singleton (m : Mailbox) (o : AddOptions) (ho : o.mailbox = m.mid)
    (_hskip : o.skipExisting = false) :
    add { mailboxes := [m], messages := [], users := [], journal := [] } o =
      .ok { uidValidity := some m.uidValidity, uid := m.uidNext, id := o.newId,
            mailbox := m.mid, status := .new } (addFreshDb m o) := by
  simp [add, mailboxFind, ho, checkExistingMessage, checkExistingFind,
    reserveUidModseq, incStorage, appendJournal, addFreshDb, addFreshMessage]

/-- Computation of the duplicate-replace `add` that follows a fresh `add`
into a mailbox that started at tip `(5, 10)`. -/
theorem add_dup_after_fresh (mb : Mailbox) (o : AddOptions) (k : Nat)
    (h5 : mb.uidNext = 5) (h10 : mb.modifyIndex = 10)
    (ho : o.mailbox = mb.mid) (hskip : o.skipExisting = false) :
    add (addFreshDb mb o) { o with newId := k } =
      .ok { uidValidity := some mb.uidValidity, uid := 6, id := o.newId,
            mailbox := mb.mid, status := .update } (dupDb2 mb o) := by
  simp [add, addFreshDb, addFreshMessage, mailboxFind, ho, checkExistingMessage,
    checkExistingFind, hskip, reserveUidModseq, messageFindAndSet, incStorage,
    appendJournal, dupDb2, h5, h10]

/-! ## C1: add followed by a duplicate add -/

/-- C1: in a database holding one mailbox at tip `(5, 10)` and no messages, a
fresh `add` assigns `uid = 5`, `modseq = 11` and leaves the mailbox at
`(6, 11)`; a second `add` of a message with the same `hdate` and `msgid` and
`skipExisting = false` expunges UID 5, reassigns the same `_id` to `uid = 6`,
`modseq = 12`, and leaves the mailbox at `(7, 12)`, journalling
`EXPUNGE(5)` then `EXISTS(6)`. -/
theorem add_then_duplicate_add (mb : Mailbox) (o : AddOptions) (k : Nat)
    (h5 : mb.uidNext = 5) (h10 : mb.modifyIndex = 10)
    (ho : o.mailbox = mb.mid) (hskip : o.skipExisting = false) :
    ∃ r1 db1 r2 db2,
      add { mailboxes := [mb], messages := [], users := [], journal := [] } o =
        .ok r1 db1 ∧
      r1.uid = 5 ∧ r1.status = .new ∧ r1.id = o.newId ∧
      (∃ m1, m1 ∈ db1.messages ∧ m1.mid = o.newId ∧ m1.uid = 5 ∧ m1.modseq = 11) ∧
      mailboxFind db1 mb.mid = some { mb with uidNext := 6, modifyIndex := 11 } ∧
      add db1 { o with newId := k } = .ok r2 db2 ∧
      r2.uid = 6 ∧ r2.status = .update ∧ r2.id = o.newId ∧
      (∃ m2, m2 ∈ db2.messages ∧ m2.mid = o.newId ∧ m2.uid = 6 ∧ m2.modseq = 12) ∧
      mailboxFind db2 mb.mid = some { mb with uidNext := 7, modifyIndex := 12 } ∧
      (db2.journal.drop db1.journal.length).map (fun e => (e.command, e.uid)) =
        [("EXPUNGE", 5), ("EXISTS", 6)] := by
  refine ⟨_, _, _, _, add_fresh_singleton mb o ho hskip, h5, rfl, rfl, ?_, ?_,
    add_dup_after_fresh mb o k h5 h10 ho hskip, rfl, rfl, rfl, ?_, ?_, ?_⟩
  · exact ⟨addFreshMessage mb o, by simp [addFreshDb], rfl, h5, by simp [addFreshMessage, h10]⟩
  · simp [addFreshDb, mailboxFind, h5, h10]
  · refine ⟨{ addFreshMessage mb o with uid := 6, modseq := 12, flags := o.flags }, ?_, rfl, rfl, rfl⟩
    simp [dupDb2]
  · simp [dupDb2, mailboxFind]
  · simp [dupDb2, addFreshDb]

/-- Concrete options for the C1 witness. -/
def oC1 : AddOptions :=
  { mailbox := 1, hdate := 7, msgid := "<x@y>", flags := [], size := 50,
    newId := 101, skipExisting := false, now := 0 }

/-- C1, witness at the mailbox `(5, 10)` and a concrete message. -/
theorem add_then_duplicate_add_witness :
    ∃ r1 db1 r2 db2,
      add { mailboxes := [mbC2], messages := [], users := [], journal := [] } oC1 =
        .ok r1 db1 ∧
      r1.uid = 5 ∧ r1.status = .new ∧ r1.id = oC1.newId ∧
      (∃ m1, m1 ∈ db1.messages ∧ m1.mid = oC1.newId ∧ m1.uid = 5 ∧ m1.modseq = 11) ∧
      mailboxFind db1 mbC2.mid = some { mbC2 with uidNext := 6, modifyIndex := 11 } ∧
      add db1 { oC1 with newId := 102 } = .ok r2 db2 ∧
      r2.uid = 6 ∧ r2.status = .update ∧ r2.id = oC1.newId ∧
      (∃ m2, m2 ∈ db2.messages ∧ m2.mid = oC1.newId ∧ m2.uid = 6 ∧ m2.modseq = 12) ∧
      mailboxFind db2 mbC2.mid = some { mbC2 with uidNext := 7, modifyIndex := 12 } ∧
      (db2.journal.drop db1.journal.length).map (fun e => (e.command, e.uid)) =
        [("EXPUNGE", 5), ("EXISTS", 6)] :=
  add_then_duplicate_add mbC2 oC1 102 rfl rfl rfl rfl

/-! ## C2: the UID+MODSEQ reservation -/

/-- C2, counterexample: on a mailbox at tip `(5, 10)` the reservation step
returns the record still reading `(5, 10)` while the stored post-image reads
`(6, 11)`; the returned record is the pre-image, not the post-image the claim
asserts. -/
theorem reserveSlot_returns_preimage_counterexample :
    (reserveUidModseq dbC2 1).map (fun p => (p.1, mailboxFind p.2 1)) =
      some (mbC2, some { mbC2 with uidNext := 6, modifyIndex := 11 }) ∧
    mbC2 ≠ { mbC2 with uidNext := 6, modifyIndex := 11 } := by
  constructor
  · rfl
  · decide

/-- C2, amended: the reservation step atomically increments both `uidNext`
and `modifyIndex` by 1 and returns the pre-image of the mailbox record; `add`
takes the new message's `uid` from the returned `uidNext` and its `modseq`
from the returned `modifyIndex + 1`. -/
theorem reserveSlot_preimage_and_usage (db : DB) (mboxId : Nat) (m : Mailbox)
    (h : mailboxFind db mboxId = some m) :
    (∃ db2, reserveUidModseq db mboxId = some (m, db2) ∧
       mailboxFind db2 mboxId =
         some { m with uidNext := m.uidNext + 1, modifyIndex := m.modifyIndex + 1 }) ∧
    ∀ o : AddOptions, o.mailbox = m.mid → o.skipExisting = false →
      ∃ r dbf,
        add { mailboxes := [m], messages := [], users := [], journal := [] } o = .ok r dbf ∧
        r.uid = m.uidNext ∧
        ∃ msg, msg ∈ dbf.messages ∧ msg.mid = o.newId ∧ msg.uid = m.uidNext ∧
          msg.modseq = m.modifyIndex + 1 := by
  constructor
  · refine ⟨{ db with
        mailboxes := db.mailboxes.map fun x =>
          if x.mid == mboxId then
            { x with uidNext := x.uidNext + 1, modifyIndex := x.modifyIndex + 1 }
          else x }, ?_, ?_⟩
    · unfold reserveUidModseq
      rw [h]
      rfl
    · show List.find? (fun x => x.mid == mboxId)
          (db.mailboxes.map fun x =>
            if x.mid == mboxId then
              { x with uidNext := x.uidNext + 1, modifyIndex := x.modifyIndex + 1 }
            else x) = some _
      exact find_map_keyUpdate db.mailboxes mboxId
        (fun x => { x with uidNext := x.uidNext + 1, modifyIndex := x.modifyIndex + 1 })
        (fun _ => rfl) m h
  · intro o ho hskip
    refine ⟨_, _, add_fresh_singleton m o ho hskip, rfl, addFreshMessage m o, ?_, rfl, rfl, rfl⟩
    simp [addFreshDb]

/-- C2, witness for the amended theorem at the `(5, 10)` mailbox. -/
theorem reserveSlot_preimage_witness :
    (∃ db2, reserveUidModseq dbC2 1 = some (mbC2, db2) ∧
       mailboxFind db2 1 =
         some { mbC2 with uidNext := mbC2.uidNext + 1, modifyIndex := mbC2.modifyIndex + 1 }) ∧
    ∀ o : AddOptions, o.mailbox = mbC2.mid → o.skipExisting = false →
      ∃ r dbf,
        add { mailboxes := [mbC2], messages := [], users := [], journal := [] } o = .ok r dbf ∧
        r.uid = mbC2.uidNext ∧
        ∃ msg, msg ∈ dbf.messages ∧ msg.mid = o.newId ∧ msg.uid = mbC2.uidNext ∧
          msg.modseq = mbC2.modifyIndex + 1 :=
  reserveSlot_preimage_and_usage dbC2 1 mbC2 rfl

/-! ## C3: move ordering and the journal interleaving -/

/-- C3, counterexample: moving UIDs `{7, 9}` from tip `(10, 20)` to tip
`(3, 4)` returns `sourceUid = [7, 9]`, `destinationUid = [3, 4]`, but the
journal receives all EXPUNGE entries first and then all EXISTS entries —
`EXPUNGE(7), EXPUNGE(9), EXISTS(3), EXISTS(4)` — not the claimed pairing
`EXPUNGE(7), EXISTS(3), EXPUNGE(9), EXISTS(4)`. -/
theorem move_journal_not_paired :
    (move dbC3 moC3 301).map (fun p =>
        (p.1.sourceUid, p.1.destinationUid, p.2.journal.map fun e => (e.command, e.uid))) =
      some ([7, 9], [3, 4],
        [("EXPUNGE", 7), ("EXPUNGE", 9), ("EXISTS", 3), ("EXISTS", 4)]) ∧
    [("EXPUNGE", 7), ("EXPUNGE", 9), ("EXISTS", 3), ("EXISTS", 4)] ≠
      [("EXPUNGE", 7), ("EXISTS", 3), ("EXPUNGE", 9), ("EXISTS", 4)] := by
  constructor
  · rfl
  · decide

/-- The UID and scope fields of the per-message entry pairs of `move`:
`EXPUNGE` entries carry the processed messages' UIDs in processing order and
the source scope; `EXISTS` entries carry the consecutively reserved
destination UIDs and the destination scope. -/
theorem movePairs_spec (srcId : Nat) (target : Mailbox) (o : MoveOptions) :
    ∀ (msgs : List Message) (fresh u : Nat),
      (movePairs srcId target o msgs fresh u).map (fun p => p.1.uid) =
        msgs.map Message.uid ∧
      (movePairs srcId target o msgs fresh u).map (fun p => p.2.uid) =
        List.range' u msgs.length ∧
      ∀ p ∈ movePairs srcId target o msgs fresh u,
        p.1.command = "EXPUNGE" ∧ p.1.mailbox = srcId ∧
          p.2.command = "EXISTS" ∧ p.2.mailbox = target.mid := by
  intro msgs
  induction msgs with
  | nil =>
    intro fresh u
    exact ⟨rfl, rfl, by simp [movePairs]⟩
  | cons m rest ih =>
    intro fresh u
    obtain ⟨h1, h2, h3⟩ := ih (fresh + 1) (u + 1)
    refine ⟨?_, ?_, ?_⟩
    · simp [movePairs, moveExpungeEntry, h1]
    · simp [movePairs, moveExistsEntry, h2, List.range'_succ]
    · intro p hp
      simp only [movePairs, List.mem_cons] at hp
      rcases hp with hp | hp
      · subst hp
        exact ⟨rfl, rfl, rfl, rfl⟩
      · exact h3 p hp

/-- The journal layout from a carry too small to trigger a flush: everything
is emitted by the final flush, `EXPUNGE` block then `EXISTS` block. -/
theorem layoutAux_small :
    ∀ (P : List (JournalEntry × JournalEntry)) (re ee : List JournalEntry),
      ee.length + P.length < BULK_BATCH_SIZE →
      layoutAux re ee P =
        if ee.length + P.length = 0 then []
        else (re ++ P.map Prod.fst) ++ (ee ++ P.map Prod.snd) := by
  intro P
  induction P with
  | nil =>
    intro re ee _
    by_cases he : ee.length = 0
    · simp [layoutAux, he]
    · simp [layoutAux, he]
  | cons p rest ih =>
    intro re ee hlt
    have hcond : ¬ BULK_BATCH_SIZE ≤ ee.length + 1 := by
      simp only [List.length_cons] at hlt
      omega
    simp only [layoutAux, if_neg hcond]
    rw [ih (re ++ [p.1]) (ee ++ [p.2]) (by simp only [List.length_append,
      List.length_cons, List.length_nil] at hlt ⊢; omega)]
    have h0 : ¬ (ee ++ [p.2]).length + rest.length = 0 := by simp
    have h1 : ¬ ee.length + (p :: rest).length = 0 := by simp
    rw [if_neg h0, if_neg h1]
    simp [List.append_assoc]

/-- The journal layout from a carry that the next `j` pairs fill to a flush:
the completed batch is emitted, then the layout restarts with an empty
carry. -/
theorem layoutAux_flush :
    ∀ (j : Nat) (P : List (JournalEntry × JournalEntry)) (re ee : List JournalEntry),
      0 < j → ee.length + j = BULK_BATCH_SIZE → j ≤ P.length →
      layoutAux re ee P =
        (re ++ (P.take j).map Prod.fst) ++ (ee ++ (P.take j).map Prod.snd) ++
          layoutAux [] [] (P.drop j) := by
  intro j
  induction j with
  | zero =>
    intro P re ee h0
    exact absurd h0 (by omega)
  | succ j ih =>
    intro P re ee _ hB hle
    cases P with
    | nil => simp at hle
    | cons p rest =>
      by_cases hj : j = 0
      · subst hj
        have hcond : BULK_BATCH_SIZE ≤ ee.length + 1 := by omega
        simp only [layoutAux, if_pos hcond]
        simp [List.append_assoc]
      · have hcond : ¬ BULK_BATCH_SIZE ≤ ee.length + 1 := by omega
        simp only [layoutAux, if_neg hcond]
        rw [ih rest (re ++ [p.1]) (ee ++ [p.2]) (by omega)
          (by simp only [List.length_append, List.length_cons, List.length_nil]; omega)
          (by simpa using hle)]
        simp [List.append_assoc]

/-- With an empty carry the loop's journal accumulation is exactly the
chunked `flushBlocks` layout. -/
theorem layoutAux_eq_flushBlocks (P : List (JournalEntry × JournalEntry)) :
    layoutAux [] [] P = flushBlocks P := by
  by_cases hsmall : P.length < BULK_BATCH_SIZE
  · rw [layoutAux_small P [] [] (by simpa using hsmall)]
    by_cases hP : P = []
    · subst hP
      simp [flushBlocks]
    · have hlen : ¬ ([] : List JournalEntry).length + P.length = 0 := by
        simp [List.length_eq_zero, hP]
      rw [if_neg hlen]
      unfold flushBlocks
      rw [dif_neg hP]
      rw [List.take_of_length_le (Nat.le_of_lt hsmall),
        List.drop_eq_nil_of_le (Nat.le_of_lt hsmall)]
      simp [flushBlocks]
  · push_neg at hsmall
    have hP : P ≠ [] := by
      intro h
      subst h
      simp [BULK_BATCH_SIZE] at hsmall
    rw [layoutAux_flush BULK_BATCH_SIZE P [] [] (by simp [BULK_BATCH_SIZE])
      (by simp) hsmall]
    rw [layoutAux_eq_flushBlocks (P.drop BULK_BATCH_SIZE)]
    conv_rhs => unfold flushBlocks
    rw [dif_neg hP]
    simp [List.append_assoc]
termination_by P.length
decreasing_by
  simp only [List.length_drop, BULK_BATCH_SIZE]
  have : P.length ≠ 0 := fun hl => hP (List.eq_nil_of_length_eq_zero hl)
  omega

/-- Specification of `moveLoop`: from any carry, the loop extends `sourceUid`
with the processed UIDs in order, `destinationUid` with the consecutively
reserved destination UIDs, advances the destination `uidNext` by the number
of processed messages, and appends exactly the accumulate-and-flush journal
layout of the per-message entry pairs. -/
theorem moveLoop_spec (srcId : Nat) (target : Mailbox) (o : MoveOptions) :
    ∀ (msgs : List Message) (db : DB) (su du : List Nat) (re ee : List JournalEntry)
      (fresh : Nat) (t : Mailbox),
      mailboxFind db target.mid = some t →
      ∃ db2,
        moveLoop srcId target o msgs db su du re ee fresh =
          some (db2, su ++ msgs.map Message.uid,
            du ++ List.range' t.uidNext msgs.length) ∧
        db2.journal = db.journal ++
          layoutAux re ee (movePairs srcId target o msgs fresh t.uidNext) ∧
        mailboxFind db2 target.mid = some { t with uidNext := t.uidNext + msgs.length } := by
  intro msgs
  induction msgs with
  | nil =>
    intro db su du re ee fresh t ht
    by_cases he : (ee.length != 0) = true
    · refine ⟨appendJournal (appendJournal db re) ee, ?_, ?_, ?_⟩
      · simp [moveLoop, he]
      · simp [appendJournal, movePairs, layoutAux, he, List.append_assoc]
      · simpa [appendJournal] using ht
    · refine ⟨db, ?_, ?_, ?_⟩
      · simp [moveLoop, he]
      · simp [movePairs, layoutAux, he]
      · simpa using ht
  | cons m rest ih =>
    intro db su du re ee fresh t ht
    have hstep : moveLoop srcId target o (m :: rest) db su du re ee fresh =
        (if BULK_BATCH_SIZE ≤ (ee ++ [moveExistsEntry target o fresh t.uidNext m]).length then
          moveLoop srcId target o rest
            (appendJournal (appendJournal
              { bumpedDb db target.mid with
                  messages := deleteFirstMessage
                    (fun e => e.mid == m.mid && e.mailbox == srcId && e.uid == m.uid)
                    ((bumpedDb db target.mid).messages ++
                      [movedMessage target o fresh t.uidNext m]) }
              (re ++ [moveExpungeEntry srcId m]))
              (ee ++ [moveExistsEntry target o fresh t.uidNext m]))
            (su ++ [m.uid]) (du ++ [t.uidNext]) [] [] (fresh + 1)
        else
          moveLoop srcId target o rest
            { bumpedDb db target.mid with
                messages := deleteFirstMessage
                  (fun e => e.mid == m.mid && e.mailbox == srcId && e.uid == m.uid)
                  ((bumpedDb db target.mid).messages ++
                    [movedMessage target o fresh t.uidNext m]) }
            (su ++ [m.uid]) (du ++ [t.uidNext])
            (re ++ [moveExpungeEntry srcId m])
            (ee ++ [moveExistsEntry target o fresh t.uidNext m]) (fresh + 1)) := by
      simp only [moveLoop]
      rw [bumpUidNext_eq, ht]
      rfl
    have hfind3 : mailboxFind
        { bumpedDb db target.mid with
            messages := deleteFirstMessage
              (fun e => e.mid == m.mid && e.mailbox == srcId && e.uid == m.uid)
              ((bumpedDb db target.mid).messages ++
                [movedMessage target o fresh t.uidNext m]) } target.mid =
        some { t with uidNext := t.uidNext + 1 } :=
      mailboxFind_bumpedDb db target.mid t ht
    by_cases hc : BULK_BATCH_SIZE ≤ (ee ++ [moveExistsEntry target o fresh t.uidNext m]).length
    · rw [if_pos hc] at hstep
      have hfindF : mailboxFind
          (appendJournal (appendJournal
            { bumpedDb db target.mid with
                messages := deleteFirstMessage
                  (fun e => e.mid == m.mid && e.mailbox == srcId && e.uid == m.uid)
                  ((bumpedDb db target.mid).messages ++
                    [movedMessage target o fresh t.uidNext m]) }
            (re ++ [moveExpungeEntry srcId m]))
            (ee ++ [moveExistsEntry target o fresh t.uidNext m])) target.mid =
          some { t with uidNext := t.uidNext + 1 } := hfind3
      obtain ⟨db2, hloop, hj, hf⟩ :=
        ih _ (su ++ [m.uid]) (du ++ [t.uidNext]) [] [] (fresh + 1)
          { t with uidNext := t.uidNext + 1 } hfindF
      refine ⟨db2, ?_, ?_, ?_⟩
      · rw [hstep, hloop]
        simp [List.range'_succ, List.append_assoc]
      · rw [hj]
        have hc2 : BULK_BATCH_SIZE ≤ ee.length + 1 := by simpa using hc
        show _ = db.journal ++ layoutAux re ee
          ((moveExpungeEntry srcId m, moveExistsEntry target o fresh t.uidNext m) ::
            movePairs srcId target o rest (fresh + 1) (t.uidNext + 1))
        simp only [layoutAux, if_pos hc2]
        simp [appendJournal, bumpedDb, List.append_assoc]
      · have harith : t.uidNext + (rest.length + 1) = t.uidNext + 1 + rest.length := by omega
        show mailboxFind db2 target.mid =
          some { t with uidNext := t.uidNext + (m :: rest).length }
        rw [List.length_cons, harith]
        exact hf
    · rw [if_neg hc] at hstep
      obtain ⟨db2, hloop, hj, hf⟩ :=
        ih _ (su ++ [m.uid]) (du ++ [t.uidNext])
          (re ++ [moveExpungeEntry srcId m])
          (ee ++ [moveExistsEntry target o fresh t.uidNext m]) (fresh + 1)
          { t with uidNext := t.uidNext + 1 } hfind3
      refine ⟨db2, ?_, ?_, ?_⟩
      · rw [hstep, hloop]
        simp [List.range'_succ, List.append_assoc]
      · rw [hj]
        have hc2 : ¬ BULK_BATCH_SIZE ≤ ee.length + 1 := by simpa using hc
        show _ = db.journal ++ layoutAux re ee
          ((moveExpungeEntry srcId m, moveExistsEntry target o fresh t.uidNext m) ::
            movePairs srcId target o rest (fresh + 1) (t.uidNext + 1))
        simp only [layoutAux, if_neg hc2]
        rfl
      · have harith : t.uidNext + (rest.length + 1) = t.uidNext + 1 + rest.length := by omega
        show mailboxFind db2 target.mid =
          some { t with uidNext := t.uidNext + (m :: rest).length }
        rw [List.length_cons, harith]
        exact hf

/-- C3, amended: for every move, source messages are processed in source-UID
ascending order, `sourceUid` and `destinationUid` are index-paired in that
order (entry `i` of both refers to the `i`-th processed message and its
reserved destination UID), and the journal receives, per flush batch of
`BULK_BATCH_SIZE` pairs, all `EXPUNGE` entries (source scope, UID ascending)
followed by all `EXISTS` entries (destination scope) in the same pairing
order — not interleaved pairs. -/
theorem move_ascending_paired_batched (db : DB) (o : MoveOptions) (freshBase : Nat)
    (mailboxData target t : Mailbox)
    (hsrc : mailboxFind db o.source = some mailboxData)
    (hdst : mailboxFind db o.destination = some target)
    (ht : mailboxFind (bumpModifyIndex db mailboxData.mid) target.mid = some t)
    (hnodup : ((db.messages.filter fun m =>
        m.mailbox == mailboxData.mid && o.messages.contains m.uid).map
          Message.uid).Nodup) :
    moveBatchedSpec db o freshBase mailboxData target t := by
  have hperm : List.Perm
      (moveCursor (bumpModifyIndex db mailboxData.mid) mailboxData.mid o.messages)
      ((bumpModifyIndex db mailboxData.mid).messages.filter fun m =>
        m.mailbox == mailboxData.mid && o.messages.contains m.uid) :=
    List.perm_insertionSort _ _
  have hsorted : List.Sorted (fun a b : Message => a.uid ≤ b.uid)
      (moveCursor (bumpModifyIndex db mailboxData.mid) mailboxData.mid o.messages) :=
    List.sorted_insertionSort _ _
  obtain ⟨db2, hloop, hj, _⟩ :=
    moveLoop_spec mailboxData.mid target o
      (moveCursor (bumpModifyIndex db mailboxData.mid) mailboxData.mid o.messages)
      (bumpModifyIndex db mailboxData.mid) [] [] [] [] freshBase t ht
  obtain ⟨hp1, hp2, hp3⟩ :=
    movePairs_spec mailboxData.mid target o
      (moveCursor (bumpModifyIndex db mailboxData.mid) mailboxData.mid o.messages)
      freshBase t.uidNext
  refine ⟨db2, ?_, ?_, ?_, ?_, hp1, hp2, hp3, ?_⟩
  · simp only [move]
    rw [hsrc, hdst]
    simp only [hloop, List.nil_append]
    rfl
  · have hple : List.Pairwise (fun a b : Nat => a ≤ b)
        ((moveCursor (bumpModifyIndex db mailboxData.mid)
          mailboxData.mid o.messages).map Message.uid) :=
      List.Pairwise.map Message.uid (fun _ _ h => h) hsorted
    have hnd : ((moveCursor (bumpModifyIndex db mailboxData.mid)
        mailboxData.mid o.messages).map Message.uid).Nodup :=
      ((hperm.map Message.uid).nodup_iff).mpr hnodup
    exact (hple.and hnd).imp fun h => lt_of_le_of_ne h.1 h.2
  · exact List.pairwise_lt_range' _ _
  · simp
  · rw [hj, layoutAux_eq_flushBlocks]
    rfl

/-- C3, witness: the S3 scenario — UIDs `{7, 9}` from tip `(10, 20)` to tip
`(3, 4)` — satisfies the ascending, index-paired, batched-journal
property. -/
theorem move_ascending_paired_batched_witness :
    moveBatchedSpec dbC3 moC3 301 mbSrc3 mbDst3 mbDst3 :=
  move_ascending_paired_batched dbC3 moC3 301 mbSrc3 mbDst3 mbDst3
    rfl rfl rfl (by decide)

/-! ## C4: SASL PLAIN argument validation -/

/-- C4, counterexample: the token `"AAA"` decodes to two NUL bytes, which
split into exactly three empty fields, so `authenticate` does *not* answer
`BAD Invalid SASL argument` but proceeds to `onAuth` with empty
credentials. -/
theorem sasl_aaa_not_rejected :
    saslPlainCheck "AAA" = .creds [] [] ∧
    saslPlainCheck "AAA" ≠ .badInvalidArgument := by
  constructor
  · rfl
  · decide

/-- C4, amended: `authenticate` answers `BAD Invalid SASL argument` exactly
when the NUL-split of the base64-decoded token does not have exactly three
fields; the byte count itself is irrelevant, and `"AAA"` (three empty fields)
is not rejected. -/
theorem sasl_bad_iff_arity (token : String) :
    saslPlainCheck token = .badInvalidArgument ↔
      (splitNul (base64Decode token)).length ≠ 3 := by
  simp only [saslPlainCheck]
  split
  · next h => simpa using ne_of_beq_false (by simpa using h)
  · next h =>
    constructor
    · intro hc; cases hc
    · intro hne
      exact absurd (by simpa using hne) h

/-- C4, witness for the amended theorem: the token `"AA"` decodes to a single
NUL byte (two fields) and is rejected. -/
theorem sasl_bad_iff_arity_witness :
    saslPlainCheck "AA" = .badInvalidArgument :=
  (sasl_bad_iff_arity "AA").mpr (by decide)

/-! ## C5: `del` and the user quota -/

/-- C5: deleting a 100-byte message removes the document and journals the
`EXPUNGE`, but the user's `storageUsed` stays at 1000: `updateQuota` is
called with the mailbox ObjectID, whose `.user` property is undefined, so its
filter matches no user document. -/
theorem del_does_not_decrement_quota :
    (del dbC5 msgC5).map (fun d =>
        (d.users, d.messages, d.journal.map fun e => (e.command, e.uid))) =
      some ([userC5], [], [("EXPUNGE", 5)]) ∧
    userC5.storageUsed = 1000 := by
  constructor
  · rfl
  · rfl

/-! ## C6: the `draft` change key of `update` -/

/-- C6: `changes = {draft: true}` on a message with no flags adds `\Draft`
to the flag set, but the `draft` boolean column stays `false` while the
`flagged` column is set to `true`: the source's `draft` branch assigns
`updates.$set.flagged = changes.draft` and never writes `$set.draft`. -/
theorem update_draft_writes_flagged_column :
    (buildUpdateDoc chC6).map (fun d =>
        ((applyUpdateDoc d 51 msgC6).flags, (applyUpdateDoc d 51 msgC6).draft,
          (applyUpdateDoc d 51 msgC6).flagged, d.setDraft, d.setFlagged)) =
      some (["\\Draft"], false, true, none, some true) := by
  rfl

/-! ## C7: cumulative `html[]` truncation -/

/-- C7: with `MAX_HTML_CONTENT = 4` and entries of 2 and 8 bytes, the second
entry is cut to `htmlSize + byteLength - MAX = 6` bytes (the overflow, not
the remaining budget), so the retained entries total 8 bytes, exceeding the
4-byte budget the claim asserts. -/
theorem html_truncation_exceeds_budget :
    truncateHtml 4 [htmlC7a, htmlC7b] =
      [['a', 'b'], ['a', 'b', 'c', 'd', 'e', 'f']] ∧
    ((truncateHtml 4 [htmlC7a, htmlC7b]).map List.length).sum = 8 ∧
    ¬ ((truncateHtml 4 [htmlC7a, htmlC7b]).map List.length).sum ≤ 4 := by
  refine ⟨rfl, rfl, ?_⟩
  decide

/-! ## C8: the `intro` preview -/

set_option maxRecDepth 20000 in
/-- C8, counterexample: a 129-character text with no whitespace yields an
intro of `128` characters plus the appended ellipsis — 129 characters,
exceeding the claimed 128-character bound. -/
theorem intro_129_chars :
    (makeIntro tC8).length = 129 ∧ ¬ (makeIntro tC8).length ≤ 128 := by
  constructor
  · decide
  · decide

/-- C8, amended: the intro is the collapsed text itself (≤ 128 characters)
when that text fits; otherwise it is a prefix of at most 128 characters of
the collapsed text with an ellipsis appended, so its length is at most 129,
and it is at most 128 whenever a word boundary exists at a positive index
within the first 128 characters. -/
theorem intro_bounds (text : List Char) :
    (makeIntro text).length ≤ 129 ∧
    ((trimWs (collapseWs text)).length ≤ 128 →
      makeIntro text = trimWs (collapseWs text) ∧ (makeIntro text).length ≤ 128) ∧
    (128 < (trimWs (collapseWs text)).length →
      (∃ n, n ≤ 128 ∧ makeIntro text = (trimWs (collapseWs text)).take n ++ ['…']) ∧
      (0 < lastSpaceIndex ((trimWs (collapseWs text)).take 128) →
        (makeIntro text).length ≤ 128)) := by
  have hlt := lastSpaceIndex_lt ((trimWs (collapseWs text)).take 128)
  by_cases h : 128 < (trimWs (collapseWs text)).length
  · have hcutlen : ((trimWs (collapseWs text)).take 128).length = 128 := by
      rw [List.length_take]
      omega
    rw [hcutlen] at hlt
    have hmk : makeIntro text =
        (if 0 < lastSpaceIndex ((trimWs (collapseWs text)).take 128) then
          ((trimWs (collapseWs text)).take 128).take
            (lastSpaceIndex ((trimWs (collapseWs text)).take 128)).toNat
        else (trimWs (collapseWs text)).take 128) ++ ['…'] := by
      simp only [makeIntro]
      rw [if_pos h]
    by_cases hsp : 0 < lastSpaceIndex ((trimWs (collapseWs text)).take 128)
    · rw [if_pos hsp] at hmk
      have hlen : (makeIntro text).length =
          min (lastSpaceIndex ((trimWs (collapseWs text)).take 128)).toNat 128 + 1 := by
        rw [hmk, List.length_append, List.length_take, hcutlen]
        rfl
      have hb : (makeIntro text).length ≤ 128 := by omega
      refine ⟨by omega, fun hle => absurd hle (by omega), fun _ => ⟨?_, fun _ => hb⟩⟩
      refine ⟨min (lastSpaceIndex ((trimWs (collapseWs text)).take 128)).toNat 128,
        by omega, ?_⟩
      rw [hmk, List.take_take]
    · rw [if_neg hsp] at hmk
      have hlen : (makeIntro text).length = 129 := by
        rw [hmk, List.length_append, hcutlen]
        rfl
      refine ⟨by omega, fun hle => absurd hle (by omega),
        fun _ => ⟨⟨128, le_refl 128, hmk⟩, fun hsp2 => absurd hsp2 hsp⟩⟩
  · have hmk : makeIntro text = trimWs (collapseWs text) := by
      simp only [makeIntro]
      rw [if_neg h]
    refine ⟨?_, fun _ => ⟨hmk, ?_⟩, fun hgt => absurd hgt h⟩
    · rw [hmk]; omega
    · rw [hmk]; omega

set_option maxRecDepth 20000 in
/-- C8, witness: a collapsed text of 161 characters with a space inside the
first 128 characters gets an intro of at most 128 characters. -/
theorem intro_bounds_witness :
    128 < (trimWs (collapseWs tC8w)).length ∧ (makeIntro tC8w).length ≤ 128 :=
  ⟨by decide, ((intro_bounds tC8w).2.2 (by decide)).2 (by decide)⟩

/-! ## C9: SSE journal frame filtering -/

/-- C9: a key/value pair survives into the `data:` payload exactly when its
key is none of `_id, ignore, user, modseq, unseenChange, created` and, unless
the entry's command is `COUNTERS`, not `unseen` either; values are copied
unchanged and the `id:` line carries the entry's `_id` when present. -/
theorem sse_payload_key_filter (e : JsDoc) (k v : String) :
    ((k, v) ∈ (formatJournalData e).1 ↔
      ((k, v) ∈ e ∧ ¬ k ∈ sseOmittedKeys ∧
        (k = "unseen" → jsGet e "command" = some "COUNTERS"))) ∧
    (formatJournalData e).2 = jsGet e "_id" := by
  constructor
  · simp only [formatJournalData, List.mem_filter]
    refine and_congr_right fun _ => ?_
    rw [Bool.and_eq_true, Bool.not_eq_true', Bool.not_eq_true']
    constructor
    · rintro ⟨h1, h2⟩
      refine ⟨by simpa using h1, ?_⟩
      intro hk
      subst hk
      rcases Bool.and_eq_false_iff.mp h2 with h | h
      · simpa using h
      · simp at h
    · rintro ⟨h1, h2⟩
      refine ⟨by simpa using h1, ?_⟩
      rw [Bool.and_eq_false_iff]
      by_cases hk : k = "unseen"
      · subst hk
        exact Or.inl (by simpa using h2 rfl)
      · exact Or.inr (by simpa using hk)
  · rfl

/-- C9, witness: on a concrete entry the retained `uid` key survives and the
`id:` line carries the `_id` value. -/
theorem sse_payload_key_filter_witness :
    ("uid", "5") ∈ (formatJournalData eC9).1 ∧ (formatJournalData eC9).2 = some "65a" :=
  ⟨(sse_payload_key_filter eC9 "uid" "5").1.mpr (by decide),
    (sse_payload_key_filter eC9 "uid" "5").2.trans rfl⟩

/-! ## C10: onCopy pairing and ordering -/

theorem copiesFrom_length (target : Mailbox) (now : Nat) :
    ∀ (msgs : List Message) (fresh u0 : Nat),
      (copiesFrom target now fresh u0 msgs).length = msgs.length := by
  intro msgs
  induction msgs with
  | nil => intro fresh u0; rfl
  | cons m rest ih =>
    intro fresh u0
    simp only [copiesFrom, List.length_cons, ih]

theorem copyMessage_fields (t : Mailbox) (now fresh u : Nat) (m : Message) :
    (copyMessage t now fresh u m).uid = u ∧
    (copyMessage t now fresh u m).mailbox = t.mid ∧
    (copyMessage t now fresh u m).root = m.root ∧
    (copyMessage t now fresh u m).msgid = m.msgid ∧
    (copyMessage t now fresh u m).size = m.size ∧
    (copyMessage t now fresh u m).hdate = m.hdate := by
  simp only [copyMessage]
  repeat' split
  all_goals exact ⟨rfl, rfl, rfl, rfl, rfl, rfl⟩

theorem copiesFrom_getElem (target : Mailbox) (now : Nat) :
    ∀ (msgs : List Message) (fresh u0 j : Nat) (hj : j < msgs.length),
      (copiesFrom target now fresh u0 msgs).get
          ⟨j, by rw [copiesFrom_length]; exact hj⟩ =
        copyMessage target now (fresh + j) (u0 + j) (msgs.get ⟨j, hj⟩) := by
  intro msgs
  induction msgs with
  | nil => intro fresh u0 j hj; exact absurd hj (by simp)
  | cons m rest ih =>
    intro fresh u0 j hj
    cases j with
    | zero => simp [copiesFrom]
    | succ j2 =>
      have hj2 : j2 < rest.length := by simpa using hj
      have hrec := ih (fresh + 1) (u0 + 1) j2 hj2
      simp only [copiesFrom, List.get_cons_succ, hrec]
      have h1 : fresh + 1 + j2 = fresh + (j2 + 1) := by omega
      have h2 : u0 + 1 + j2 = u0 + (j2 + 1) := by omega
      rw [h1, h2]

theorem onCopyLoop_spec (target : Mailbox) (now : Nat) :
    ∀ (msgs : List Message) (db : DB) (su du : List Nat) (fresh : Nat) (t : Mailbox),
      mailboxFind db target.mid = some t →
      ∃ db2,
        onCopyLoop target now msgs db su du fresh =
          some (db2, (msgs.map Message.uid).reverse ++ su,
            (List.range' t.uidNext msgs.length).reverse ++ du) ∧
        db2.messages = db.messages ++ copiesFrom target now fresh t.uidNext msgs ∧
        mailboxFind db2 target.mid = some { t with uidNext := t.uidNext + msgs.length } := by
  intro msgs
  induction msgs with
  | nil =>
    intro db su du fresh t ht
    refine ⟨db, by simp [onCopyLoop], by simp [copiesFrom], ?_⟩
    simpa using ht
  | cons m rest ih =>
    intro db su du fresh t ht
    have hstep : onCopyLoop target now (m :: rest) db su du fresh =
        onCopyLoop target now rest
          (appendJournal
            { bumpedDb db target.mid with
                messages := (bumpedDb db target.mid).messages ++
                  [copyMessage target now fresh t.uidNext m] }
            [{ mailbox := target.mid, command := "EXISTS",
               uid := (copyMessage target now fresh t.uidNext m).uid,
               message := (copyMessage target now fresh t.uidNext m).mid,
               modseq := none, unseen := (copyMessage target now fresh t.uidNext m).unseen,
               junk := copyJunkDelta target m }])
          (m.uid :: su) (t.uidNext :: du) (fresh + 1) := by
      simp only [onCopyLoop]
      rw [bumpUidNext_eq, ht]
      rfl
    have hfind3 : mailboxFind
        (appendJournal
          { bumpedDb db target.mid with
              messages := (bumpedDb db target.mid).messages ++
                [copyMessage target now fresh t.uidNext m] }
          [{ mailbox := target.mid, command := "EXISTS",
             uid := (copyMessage target now fresh t.uidNext m).uid,
             message := (copyMessage target now fresh t.uidNext m).mid,
             modseq := none, unseen := (copyMessage target now fresh t.uidNext m).unseen,
             junk := copyJunkDelta target m }]) target.mid =
        some { t with uidNext := t.uidNext + 1 } :=
      mailboxFind_bumpedDb db target.mid t ht
    obtain ⟨db2, hloop, hmsgs, hfind⟩ :=
      ih _ (m.uid :: su) (t.uidNext :: du) (fresh + 1)
        { t with uidNext := t.uidNext + 1 } hfind3
    refine ⟨db2, ?_, ?_, ?_⟩
    · rw [hstep, hloop]
      simp [List.range'_succ, List.append_assoc]
    · rw [hmsgs]
      simp [appendJournal, bumpedDb, copiesFrom, List.append_assoc]
    · have harith : t.uidNext + (rest.length + 1) = t.uidNext + 1 + rest.length := by omega
      show mailboxFind db2 target.mid = some { t with uidNext := t.uidNext + (m :: rest).length }
      rw [List.length_cons, harith]
      exact hfind

/-- C10: a successful `onCopy` returns equally long, index-paired
`sourceUid`/`destinationUid` arrays ordered by source UID descending — the
reverse of the UID-ascending processing order — where `destinationUid[i]` is
the UID under which the copy of the source message with UID `sourceUid[i]`
was stored in the destination mailbox. -/
theorem onCopy_paired_descending (db : DB) (userId : Nat) (srcPath destPath : String)
    (uids : List Nat) (now freshBase : Nat) (mailbox target t : Mailbox)
    (hsrc : db.mailboxes.find? (fun m => m.user == userId && m.path == srcPath) =
      some mailbox)
    (hdst : db.mailboxes.find? (fun m => m.user == userId && m.path == destPath) =
      some target)
    (ht : mailboxFind db target.mid = some t)
    (hnodup : ((db.messages.filter fun m =>
        m.mailbox == mailbox.mid && uids.contains m.uid).map Message.uid).Nodup) :
    copyPairedDescending db userId srcPath destPath uids now freshBase target := by
  have hperm : List.Perm
      (List.insertionSort (fun a b : Message => a.uid ≤ b.uid)
        (db.messages.filter fun m => m.mailbox == mailbox.mid && uids.contains m.uid))
      (db.messages.filter fun m => m.mailbox == mailbox.mid && uids.contains m.uid) :=
    List.perm_insertionSort _ _
  have hsorted : List.Sorted (fun a b : Message => a.uid ≤ b.uid)
      (List.insertionSort (fun a b : Message => a.uid ≤ b.uid)
        (db.messages.filter fun m => m.mailbox == mailbox.mid && uids.contains m.uid)) :=
    List.sorted_insertionSort _ _
  obtain ⟨db2, hloop, hmsgs, hfind⟩ :=
    onCopyLoop_spec target now
      (List.insertionSort (fun a b : Message => a.uid ≤ b.uid)
        (db.messages.filter fun m => m.mailbox == mailbox.mid && uids.contains m.uid))
      db [] [] freshBase t ht
  have hcopy : onCopy db userId srcPath destPath uids now freshBase =
      some ({ uidValidity := target.uidValidity,
              sourceUid := ((List.insertionSort (fun a b : Message => a.uid ≤ b.uid)
                (db.messages.filter fun m =>
                  m.mailbox == mailbox.mid && uids.contains m.uid)).map
                    Message.uid).reverse,
              destinationUid := (List.range' t.uidNext
                (List.insertionSort (fun a b : Message => a.uid ≤ b.uid)
                  (db.messages.filter fun m =>
                    m.mailbox == mailbox.mid && uids.contains m.uid)).length).reverse },
            if (List.insertionSort (fun a b : Message => a.uid ≤ b.uid)
                  (db.messages.filter fun m =>
                    m.mailbox == mailbox.mid && uids.contains m.uid)).length != 0 then
              incStorage db2 mailbox.user
                (((List.insertionSort (fun a b : Message => a.uid ≤ b.uid)
                  (db.messages.filter fun m =>
                    m.mailbox == mailbox.mid && uids.contains m.uid)).map
                      fun m => (m.size : Int)).sum)
            else db2) := by
    simp only [onCopy]
    rw [hsrc, hdst]
    simp only [hloop, List.append_nil]
    rfl
  refine ⟨_, _, _, hcopy, ?_, ?_, ?_, ?_⟩
  · simp
  · rw [List.pairwise_reverse]
    have hple : List.Pairwise (fun a b : Nat => a ≤ b)
        ((List.insertionSort (fun a b : Message => a.uid ≤ b.uid)
          (db.messages.filter fun m =>
            m.mailbox == mailbox.mid && uids.contains m.uid)).map Message.uid) :=
      List.Pairwise.map Message.uid (fun _ _ h => h) hsorted
    have hnd : ((List.insertionSort (fun a b : Message => a.uid ≤ b.uid)
        (db.messages.filter fun m =>
          m.mailbox == mailbox.mid && uids.contains m.uid)).map Message.uid).Nodup :=
      ((hperm.map Message.uid).nodup_iff).mpr hnodup
    exact (hple.and hnd).imp fun h => lt_of_le_of_ne h.1 h.2
  · rw [List.pairwise_reverse]
    exact List.pairwise_lt_range' _ _
  · intro i hi hi2
    set msgs := List.insertionSort (fun a b : Message => a.uid ≤ b.uid)
      (db.messages.filter fun m => m.mailbox == mailbox.mid && uids.contains m.uid)
      with hmsgsdef
    have hin : i < msgs.length := by
      simpa using hi
    have hj : msgs.length - 1 - i < msgs.length := by omega
    have hsu : ((msgs.map Message.uid).reverse).get ⟨i, by simpa using hi⟩ =
        (msgs.get ⟨msgs.length - 1 - i, hj⟩).uid := by
      rw [get_reverse_aux _ _ _ (by simp only [List.length_map]; omega)]
      simp [List.get_eq_getElem, List.getElem_map]
    have hdu : ((List.range' t.uidNext msgs.length).reverse).get ⟨i, by simpa using hi2⟩ =
        t.uidNext + (msgs.length - 1 - i) := by
      rw [get_reverse_aux _ _ _ (by simp only [List.length_range']; omega)]
      simp [List.get_eq_getElem, List.getElem_range'_1, List.length_range']
    refine ⟨msgs.get ⟨msgs.length - 1 - i, hj⟩, ?_, ?_⟩
    · have hmem : msgs.get ⟨msgs.length - 1 - i, hj⟩ ∈ msgs := List.get_mem _ _ _
      have hmemf : msgs.get ⟨msgs.length - 1 - i, hj⟩ ∈
          db.messages.filter fun m => m.mailbox == mailbox.mid && uids.contains m.uid :=
        hperm.mem_iff.mp hmem
      exact (List.mem_filter.mp hmemf).1
    · refine ⟨copyMessage target now (freshBase + (msgs.length - 1 - i))
        (t.uidNext + (msgs.length - 1 - i)) (msgs.get ⟨msgs.length - 1 - i, hj⟩),
        ?_, ?_, ?_, ?_, ?_, ?_, ?_, ?_⟩
      · have hc : (copiesFrom target now freshBase t.uidNext msgs).get
            ⟨msgs.length - 1 - i, by rw [copiesFrom_length]; exact hj⟩ =
            copyMessage target now (freshBase + (msgs.length - 1 - i))
              (t.uidNext + (msgs.length - 1 - i))
              (msgs.get ⟨msgs.length - 1 - i, hj⟩) :=
          copiesFrom_getElem target now msgs freshBase t.uidNext _ hj
        have hcmem : copyMessage target now (freshBase + (msgs.length - 1 - i))
            (t.uidNext + (msgs.length - 1 - i)) (msgs.get ⟨msgs.length - 1 - i, hj⟩) ∈
            copiesFrom target now freshBase t.uidNext msgs := by
          rw [← hc]
          exact List.get_mem _ _ _
        have hmem2 : copyMessage target now (freshBase + (msgs.length - 1 - i))
            (t.uidNext + (msgs.length - 1 - i)) (msgs.get ⟨msgs.length - 1 - i, hj⟩) ∈
            db2.messages := by
          rw [hmsgs]
          exact List.mem_append_right _ hcmem
        have hpres : (if msgs.length != 0 then
            incStorage db2 mailbox.user ((msgs.map fun m => (m.size : Int)).sum)
            else db2).messages = db2.messages := by
          split <;> rfl
        rw [hpres]
        exact hmem2
      · exact hsu.symm
      · exact (copyMessage_fields _ _ _ _ _).2.1
      · show (copyMessage target now (freshBase + (msgs.length - 1 - i))
            (t.uidNext + (msgs.length - 1 - i))
            (msgs.get ⟨msgs.length - 1 - i, hj⟩)).uid =
          ((List.range' t.uidNext msgs.length).reverse).get ⟨i, by simpa using hi2⟩
        rw [(copyMessage_fields _ _ _ _ _).1]
        exact hdu.symm
      · exact (copyMessage_fields _ _ _ _ _).2.2.1
      · exact (copyMessage_fields _ _ _ _ _).2.2.2.1
      · exact (copyMessage_fields _ _ _ _ _).2.2.2.2.1
      · exact (copyMessage_fields _ _ _ _ _).2.2.2.2.2

/-- C10, witness: copying UIDs `{7, 9}` between the S3 mailboxes satisfies
the pairing and descending-order property. -/
theorem onCopy_paired_descending_witness :
    copyPairedDescending dbC10 42 "A" "B" [7, 9] 1000 500 mbDst3 :=
  onCopy_paired_descending dbC10 42 "A" "B" [7, 9] 1000 500 mbSrc3 mbDst3 mbDst3
    rfl rfl rfl (by decide)

end WildDuck
